import Mathlib

/-!
Shallow embedding of querySelectorPerpetual (src/index.js) and proofs about it.

The DOM is modelled as a list of nodes in document order; a node carries its
identity, nodeType, textContent, the set of selectors it matches (CSS matching
abstracted to membership) and the ids of its ancestors.  User supplied callback
functions are represented by a symbol of an arbitrary type F together with
their arity (the value of their length property); an environment interprets a
symbol as a pure function on JavaScript values, and every interpreter below
also returns the list of user function invocations it performed, so that the
theorems can speak about which callbacks ran.
-/

namespace QSP

/-- Errors thrown by the embedded Array.prototype methods. -/
inductive JsErr where
  | typeError : String → JsErr
deriving DecidableEq

/-- JavaScript values that flow through the operation pipeline. -/
inductive JSValue (F : Type) where
  | undef : JSValue F
  | jnull : JSValue F
  | jbool : Bool → JSValue F
  | jnum : Int → JSValue F
  | jstr : String → JSValue F
  | jelem : Nat → JSValue F
  | jarr : List (JSValue F) → JSValue F
  | jfun : F → Nat → JSValue F

/-- Interpretation of user function symbols as pure functions on values. -/
abbrev Env (F : Type) := F → List (JSValue F) → JSValue F

/-- One logged user function invocation: the symbol and its argument list. -/
abbrev CallRec (F : Type) := F × List (JSValue F)

/-- JavaScript truthiness (ToBoolean). -/
def jsToBool {F : Type} : JSValue F → Bool
  | .undef => false
  | .jnull => false
  | .jbool b => b
  | .jnum n => decide (n ≠ 0)
  | .jstr s => decide (s ≠ "")
  | .jelem _ => true
  | .jarr _ => true
  | .jfun _ _ => true

mutual

/-- JavaScript string coercion, used by the default sort comparator. -/
def jsToString {F : Type} : JSValue F → String
  | .undef => "undefined"
  | .jnull => "null"
  | .jbool b => cond b ("true") ("false")
  | .jnum n => toString n
  | .jstr s => s
  | .jelem _ => "[object Element]"
  | .jarr xs => String.intercalate (",") (jsToStringList xs)
  | .jfun _ _ => "function"

def jsToStringList {F : Type} : List (JSValue F) → List String
  | [] => []
  | x :: xs => jsToString x :: jsToStringList xs

end

/-- Null or undefined, the values a generic array method refuses as this. -/
def jsIsNullOrUndef {F : Type} : JSValue F → Bool
  | .undef => true
  | .jnull => true
  | _ => false

/-- The indexed elements seen by a generic Array.prototype method: an array
exposes its members, a string its characters, and any other value has no
indexed properties (its length coerces to zero iterations). -/
def arrayLikeElems {F : Type} : JSValue F → List (JSValue F)
  | .jarr xs => xs
  | .jstr s => s.data.map (fun c => JSValue.jstr (String.singleton c))
  | _ => []

/-- Stable insertion of x before the first element it is strictly below. -/
def insertBy {α : Type} (lt : α → α → Bool) (x : α) : List α → List α
  | [] => [x]
  | y :: ys => if lt x y then x :: y :: ys else y :: insertBy lt x ys

/-- Stable insertion sort, modelling Array.prototype.sort (stable per ES2019). -/
def sortBy {α : Type} (lt : α → α → Bool) (l : List α) : List α :=
  l.foldl (fun acc x => insertBy lt x acc) []

/-- The default comparator of Array.prototype.sort: undefined values go last,
other values compare by their string coercion. -/
def defaultSortLt {F : Type} (a b : JSValue F) : Bool :=
  match a, b with
  | .undef, _ => false
  | _, .undef => true
  | _, _ => decide (jsToString a < jsToString b)

/-- Coercion of a user comparator result to a number, as sort performs it. -/
def comparatorNum {F : Type} (v : JSValue F) : Int :=
  match v with
  | .jnum n => n
  | .jbool b => cond b 1 0
  | _ => 0

/-- One call Array.prototype[name].call(thisVal, args...), the primitive used at
src/index.js line 66.  Returns the result or the thrown error, together with
the user function invocations performed; callback invocations record the
arguments (element, index, the this value).  Comparator invocations inside
sort happen in an engine chosen order and are not logged. -/
def arrayMethodCall {F : Type} (env : Env F) (name : String) (thisVal : JSValue F)
    (args : List (JSValue F)) : Except JsErr (JSValue F) × List (CallRec F) :=
  match name with
  | "forEach" =>
    if jsIsNullOrUndef thisVal then
      (.error (.typeError ("Array.prototype.forEach called on null or undefined")), [])
    else
      match args.headD .undef with
      | .jfun f _ =>
        let xs := arrayLikeElems thisVal
        let calls := xs.enum.map (fun p => (f, [p.2, JSValue.jnum (Int.ofNat p.1), thisVal]))
        (.ok .undef, calls)
      | _ => (.error (.typeError ("undefined is not a function")), [])
  | "map" =>
    if jsIsNullOrUndef thisVal then
      (.error (.typeError ("Array.prototype.map called on null or undefined")), [])
    else
      match args.headD .undef with
      | .jfun f _ =>
        let xs := arrayLikeElems thisVal
        let calls := xs.enum.map (fun p => (f, [p.2, JSValue.jnum (Int.ofNat p.1), thisVal]))
        (.ok (.jarr (calls.map (fun c => env c.1 c.2))), calls)
      | _ => (.error (.typeError ("undefined is not a function")), [])
  | "filter" =>
    if jsIsNullOrUndef thisVal then
      (.error (.typeError ("Array.prototype.filter called on null or undefined")), [])
    else
      match args.headD .undef with
      | .jfun f _ =>
        let xs := arrayLikeElems thisVal
        let calls := xs.enum.map (fun p => (f, [p.2, JSValue.jnum (Int.ofNat p.1), thisVal]))
        let kept := xs.enum.filter (fun p => jsToBool (env f [p.2, JSValue.jnum (Int.ofNat p.1), thisVal]))
        (.ok (.jarr (kept.map (fun p => p.2))), calls)
      | _ => (.error (.typeError ("undefined is not a function")), [])
  | "sort" =>
    if jsIsNullOrUndef thisVal then
      (.error (.typeError ("Array.prototype.sort called on null or undefined")), [])
    else
      match args.headD .undef with
      | .undef =>
        match thisVal with
        | .jarr xs => (.ok (.jarr (sortBy defaultSortLt xs)), [])
        | v => (.ok v, [])
      | .jfun f _ =>
        match thisVal with
        | .jarr xs =>
          (.ok (.jarr (sortBy (fun a b => decide (comparatorNum (env f [a, b]) < 0)) xs)), [])
        | v => (.ok v, [])
      | _ => (.error (.typeError ("The comparison function must be either a function or undefined")), [])
  | _ => (.error (.typeError ("this operation name is not wired by the handle")), [])

/-- One entry of the operations array (src/index.js lines 26 to 42): the name of
the array method and the user supplied function, kept as its symbol and arity. -/
structure Operation (F : Type) where
  name : String
  func : F
  arity : Nat
deriving DecidableEq

/-- The argument list produced by Function.prototype.apply(prev, operation.func)
at src/index.js line 66: a plain function used as the argArray is array-like
with length equal to its arity and without indexed properties, so every
extracted argument is undefined. -/
def applyFnArgList {F : Type} (arity : Nat) : List (JSValue F) :=
  List.replicate arity JSValue.undef

/-- The body of operations.reduce in applyOperations, written as a left fold:
a thrown error aborts the remaining steps and propagates. -/
def applyOpsGo {F : Type} (env : Env F) :
    Except JsErr (JSValue F) × List (CallRec F) → List (Operation F) →
    Except JsErr (JSValue F) × List (CallRec F)
  | acc, [] => acc
  | acc, op :: rest =>
    match acc with
    | (.error e, log) => applyOpsGo env (.error e, log) rest
    | (.ok prev, log) =>
      let step := arrayMethodCall env op.name prev (applyFnArgList op.arity)
      applyOpsGo env (step.1, log ++ step.2) rest

/-- applyOperations (src/index.js lines 53 to 69): the singleton [element]
initial accumulator is threaded left to right through the stored operations,
each step being Array.prototype[operation.name].apply(prev, operation.func). -/
def applyOperations {F : Type} (env : Env F) (operations : List (Operation F))
    (elementId : Nat) : Except JsErr (JSValue F) × List (CallRec F) :=
  applyOpsGo env (.ok (.jarr [.jelem elementId]), []) operations

/-- The same fold with the correct calling convention for the mirror described
by the specification: each array method receives the user supplied function
itself as the callback argument. -/
def applyOpsSpecGo {F : Type} (env : Env F) :
    Except JsErr (JSValue F) × List (CallRec F) → List (Operation F) →
    Except JsErr (JSValue F) × List (CallRec F)
  | acc, [] => acc
  | acc, op :: rest =>
    match acc with
    | (.error e, log) => applyOpsSpecGo env (.error e, log) rest
    | (.ok prev, log) =>
      let step := arrayMethodCall env op.name prev [.jfun op.func op.arity]
      applyOpsSpecGo env (step.1, log ++ step.2) rest

/-- Follows the words of the specification (process element, operation
pipeline): the singleton sequence containing only the element is threaded left
to right through the named array methods with the user supplied function as
the callback.  Stated only to compare the specification against
applyOperations; it is not part of the source. -/
def applyOperationsSpec {F : Type} (env : Env F) (operations : List (Operation F))
    (elementId : Nat) : Except JsErr (JSValue F) × List (CallRec F) :=
  applyOpsSpecGo env (.ok (.jarr [.jelem elementId]), []) operations

/-- A user function environment returning undefined on every call. -/
def envStub : Env String := fun _ _ => JSValue.undef

example : applyOperations envStub [⟨("forEach"), ("f"), 1⟩] 1 =
    (.error (.typeError ("undefined is not a function")), []) := rfl

example : applyOperationsSpec envStub [⟨("forEach"), ("f"), 1⟩] 1 =
    (.ok .undef, [(("f"), [.jelem 1, .jnum 0, .jarr [.jelem 1]])]) := rfl

/-! ## DOM model and registration state -/

/-- A DOM node: identity, nodeType (1 is an element node), textContent, the
selectors it matches (CSS matching abstracted to a membership test) and the
ids of its ancestors (used to express the scope root relation). -/
structure DomNode where
  id : Nat
  nodeType : Nat
  textContent : String
  sels : List String
  ancestors : List Nat
deriving DecidableEq

/-- node.matches(selector), abstracted: the node carries the selectors it matches. -/
def nodeMatches (n : DomNode) (selector : String) : Bool := decide (selector ∈ n.sels)

/-- The document: its nodes in document order, and the id of the body element
returned by document.querySelector for the body selector. -/
structure Doc where
  nodes : List DomNode
  bodyId : Nat
deriving DecidableEq

/-- document.querySelectorAll(selector) at src/index.js line 132: all element
nodes of the whole document matching the selector, in document order. -/
def querySelectorAllDoc (doc : Doc) (selector : String) : List DomNode :=
  doc.nodes.filter (fun n => decide (n.nodeType = 1) && nodeMatches n selector)

/-- The per call state of querySelectorPerpetual (src/index.js lines 11 to 32):
the captured selector and matchReappearance option, the WeakMap of already
processed element identities, and the operations array. -/
structure Registration (F : Type) where
  selector : String
  matchReappearance : Bool
  seen : List Nat
  operations : List (Operation F)
deriving DecidableEq

/-- A default registration value, used only as the fallback of List.getD. -/
def defaultReg {F : Type} : Registration F := ⟨"", false, [], []⟩

/-- elementInvocationMap.get(node), with true as the only stored value:
membership of the identity. -/
def wmGet (k : Nat) (s : List Nat) : Bool := decide (k ∈ s)

/-- elementInvocationMap.set(node, true): WeakMap keys are unique, so setting a
present key changes nothing. -/
def wmSet (k : Nat) (s : List Nat) : List Nat := if k ∈ s then s else k :: s

/-- Observable outcome of one processing loop: the updated registration, the
logged user function invocations, the ids whose pipeline application ran, the
ids that entered the process element block at all, and the error that aborted
the loop if one was thrown. -/
structure RunOut (F : Type) where
  reg : Registration F
  log : List (CallRec F)
  ran : List Nat
  entered : List Nat
  err : Option JsErr

/-- The process element block shared verbatim by the mutation callback
(src/index.js lines 99 to 108) and the matchExisting scan (lines 140 to 149):
skip when matchReappearance is false and the element is already in the
WeakMap; otherwise mark it and apply the stored operations to it. -/
def processCandidate {F : Type} (env : Env F) (reg : Registration F) (n : DomNode) :
    RunOut F :=
  if reg.matchReappearance = false ∧ wmGet n.id reg.seen = true then
    ⟨reg, [], [], [n.id], none⟩
  else
    let reg2 : Registration F := { reg with seen := wmSet n.id reg.seen }
    let res := applyOperations env reg2.operations n.id
    ⟨reg2, res.2, [n.id], [n.id],
      match res.1 with
      | .ok _ => none
      | .error e => some e⟩

/-- Array.prototype.forEach over a list of candidate nodes with a guard:
instantiated with the element and selector test for the mutation callback
(src/index.js lines 85 to 110) and with the always true guard for the
matchExisting scan (lines 132 to 150).  A thrown error aborts the loop. -/
def runCandidates {F : Type} (env : Env F) (check : DomNode → Bool) :
    Registration F → List DomNode → RunOut F
  | reg, [] => ⟨reg, [], [], [], none⟩
  | reg, n :: rest =>
    if check n then
      let o := processCandidate env reg n
      match o.err with
      | some e => ⟨o.reg, o.log, o.ran, o.entered, some e⟩
      | none =>
        let o2 := runCandidates env check o.reg rest
        ⟨o2.reg, o.log ++ o2.log, o.ran ++ o2.ran, o.entered ++ o2.entered, o2.err⟩
    else runCandidates env check reg rest

/-- The check at src/index.js line 91: node.nodeType === Node.ELEMENT_NODE &&
node.matches(selector); the matches call is only reached for element nodes. -/
def observerGuard (selector : String) (n : DomNode) : Bool :=
  decide (n.nodeType = 1) && nodeMatches n selector

/-- One record of a mutation batch: its addedNodes list. -/
structure MutationRecord where
  addedNodes : List DomNode
deriving DecidableEq

/-- All added nodes of a batch, record by record, in delivery order. -/
def allAddedNodes : List MutationRecord → List DomNode
  | [] => []
  | m :: rest => m.addedNodes ++ allAddedNodes rest

/-- The MutationObserver callback (src/index.js lines 78 to 112):
mutations.forEach over the records, each iterating its addedNodes with the
element and selector guard; a thrown error aborts the whole callback. -/
def runRecords {F : Type} (env : Env F) (selector : String) :
    Registration F → List MutationRecord → RunOut F
  | reg, [] => ⟨reg, [], [], [], none⟩
  | reg, m :: rest =>
    let o := runCandidates env (observerGuard selector) reg m.addedNodes
    match o.err with
    | some e => ⟨o.reg, o.log, o.ran, o.entered, some e⟩
    | none =>
      let o2 := runRecords env selector o.reg rest
      ⟨o2.reg, o.log ++ o2.log, o.ran ++ o2.ran, o.entered ++ o2.entered, o2.err⟩

/-- Successive deliveries of mutation batches to the same observer callback; an
error thrown during one delivery reaches the platform and does not prevent
later deliveries. -/
def runBatches {F : Type} (env : Env F) (selector : String) :
    Registration F → List (List MutationRecord) →
    Registration F × List (CallRec F) × List Nat
  | reg, [] => (reg, [], [])
  | reg, b :: rest =>
    let o := runRecords env selector reg b
    let t := runBatches env selector o.reg rest
    (t.1, o.log ++ t.2.1, o.ran ++ t.2.2)

/-- A registration lifetime trace: the matchExisting scan over the initial
query results followed by a sequence of delivered mutation batches. -/
def runScanThenBatches {F : Type} (env : Env F) (selector : String)
    (reg : Registration F) (scanNodes : List DomNode)
    (batches : List (List MutationRecord)) :
    Registration F × List (CallRec F) × List Nat :=
  let o := runCandidates env (fun _ => true) reg scanNodes
  let t := runBatches env selector o.reg batches
  (t.1, o.log ++ t.2.1, o.ran ++ t.2.2)

/-! ## Options, global state, and the registration function -/

/-- The options argument as the caller builds it; a missing field models an
absent property for Object.assign. -/
structure OptionsObj where
  matchExisting : Option Bool := none
  matchReappearance : Option Bool := none
  rootElement : Option Nat := none
deriving DecidableEq

/-- The fully resolved options after
Object.assign(defaultOptions, options || {}) at src/index.js line 22, with
defaultOptions as at lines 16 to 20. -/
structure MergedOptions where
  matchExisting : Bool
  matchReappearance : Bool
  rootElement : Nat
deriving DecidableEq

/-- Object.assign(defaultOptions, options || {}): a property present on the
caller object overwrites the default; the default rootElement is the body. -/
def mergeOptions (doc : Doc) (options : Option OptionsObj) : MergedOptions :=
  let o := options.getD {}
  { matchExisting := o.matchExisting.getD true
    matchReappearance := o.matchReappearance.getD false
    rootElement := o.rootElement.getD doc.bodyId }

/-- The single observer slot stored on the function object
(querySelectorPerpetual.observer) plus the observe configuration of
src/index.js lines 117 to 120 and the index of the registration whose closure
the callback captured. -/
structure ObserverState where
  targetId : Nat
  childList : Bool
  subtree : Bool
  boundReg : Nat
deriving DecidableEq

/-- Process wide state: the observer slot, how many observers were ever
constructed, and all registrations created so far (a handle is an index). -/
structure GlobalState (F : Type) where
  observer : Option ObserverState
  observersCreated : Nat
  regs : List (Registration F)
deriving DecidableEq

/-- The state before any call: no observer, no registrations. -/
def freshGlobal {F : Type} : GlobalState F := ⟨none, 0, []⟩

/-- What one call of querySelectorPerpetual returns and observably does: the
new global state, the handle, and the matchExisting scan log, processed ids
and propagated error. -/
structure RegisterOut (F : Type) where
  g : GlobalState F
  handle : Nat
  scanLog : List (CallRec F)
  scanRan : List Nat
  scanErr : Option JsErr

/-- querySelectorPerpetual (src/index.js lines 11 to 195): merge the options,
create the fresh WeakMap and empty operations array, install the observer on
the resolved target if and only if the global slot is still empty, then, when
matchExisting is true, scan document.querySelectorAll(selector) through the
process element block, and finally hand back the chainable handle. -/
def querySelectorPerpetualFn {F : Type} (env : Env F) (doc : Doc)
    (g : GlobalState F) (selector : String) (options : Option OptionsObj) :
    RegisterOut F :=
  let merged := mergeOptions doc options
  let target := merged.rootElement
  let reg0 : Registration F :=
    { selector := selector
      matchReappearance := merged.matchReappearance
      seen := []
      operations := [] }
  let newIdx := g.regs.length
  let g1 : GlobalState F :=
    match g.observer with
    | none =>
      { g with
        observer := some ⟨target, true, true, newIdx⟩
        observersCreated := g.observersCreated + 1 }
    | some _ => g
  let scan : RunOut F :=
    if merged.matchExisting then
      runCandidates env (fun _ => true) reg0 (querySelectorAllDoc doc selector)
    else ⟨reg0, [], [], [], none⟩
  ⟨{ g1 with regs := g1.regs ++ [scan.reg] }, newIdx, scan.log, scan.ran, scan.err⟩

/-- addOperation (src/index.js lines 40 to 42): push one name and function
pair onto the operations array of the registration. -/
def addOperation {F : Type} (reg : Registration F) (name : String) (func : F)
    (arity : Nat) : Registration F :=
  { reg with operations := reg.operations ++ [⟨name, func, arity⟩] }

/-- A chain call through a handle updates only its own registration. -/
def chainAdd {F : Type} (g : GlobalState F) (h : Nat) (name : String) (func : F)
    (arity : Nat) : GlobalState F :=
  { g with regs := g.regs.set h (addOperation (g.regs.getD h defaultReg) name func arity) }

/-- The property names of the object literal returned at src/index.js
lines 154 to 193: the complete surface of the handle. -/
def handleMethodNames : List String := ["forEach", "map", "filter", "sort"]

/-- The forEach property of the handle (src/index.js lines 157 to 165):
appends the operation and returns this, that is, the same handle. -/
def handleForEach {F : Type} (g : GlobalState F) (h : Nat) (func : F)
    (arity : Nat) : GlobalState F × Nat :=
  (chainAdd g h ("forEach") func arity, h)

/-- The map property of the handle (src/index.js lines 168 to 174). -/
def handleMap {F : Type} (g : GlobalState F) (h : Nat) (func : F)
    (arity : Nat) : GlobalState F × Nat :=
  (chainAdd g h ("map") func arity, h)

/-- The filter property of the handle (src/index.js lines 177 to 183). -/
def handleFilter {F : Type} (g : GlobalState F) (h : Nat) (func : F)
    (arity : Nat) : GlobalState F × Nat :=
  (chainAdd g h ("filter") func arity, h)

/-- The sort property of the handle (src/index.js lines 186 to 192). -/
def handleSort {F : Type} (g : GlobalState F) (h : Nat) (func : F)
    (arity : Nat) : GlobalState F × Nat :=
  (chainAdd g h ("sort") func arity, h)

/-- Delivery of one mutation batch: the platform invokes the single observer
callback, whose closure processes the registration captured at creation. -/
def deliverMutations {F : Type} (env : Env F) (g : GlobalState F)
    (mutations : List MutationRecord) : GlobalState F × RunOut F :=
  match g.observer with
  | none => (g, ⟨defaultReg, [], [], [], none⟩)
  | some ob =>
    let reg := g.regs.getD ob.boundReg defaultReg
    let o := runRecords env reg.selector reg mutations
    ({ g with regs := g.regs.set ob.boundReg o.reg }, o)

/-- A sequence of registration calls against the same document. -/
def runRegisterCalls {F : Type} (env : Env F) (doc : Doc) :
    GlobalState F → List (String × Option OptionsObj) → GlobalState F
  | g, [] => g
  | g, c :: rest =>
    runRegisterCalls env doc (querySelectorPerpetualFn env doc g c.1 c.2).g rest

/-! ## Prototype convenience bindings -/

/-- Object.assign(options, maybe rootElement: receiver) as the prototype
bindings perform it: sets the rootElement property on the object itself. -/
def objectAssignRootElement (o : OptionsObj) (receiver : Nat) : OptionsObj :=
  { o with rootElement := some receiver }

/-- Document.prototype.querySelectorPerpetual (src/index.js lines 199 to 201):
options objects live in a store and the caller passes a reference; the
Object.assign mutates the referenced object in place (options || {} allocates
a fresh object only when no reference was passed) before forwarding the call. -/
def documentProtoQSP {F : Type} (env : Env F) (doc : Doc) (g : GlobalState F)
    (store : List OptionsObj) (optionsRef : Option Nat) (receiver : Nat)
    (selector : String) : List OptionsObj × RegisterOut F :=
  match optionsRef with
  | some i =>
    let updated := objectAssignRootElement (store.getD i {}) receiver
    (store.set i updated, querySelectorPerpetualFn env doc g selector (some updated))
  | none =>
    let freshObj := objectAssignRootElement {} receiver
    (store ++ [freshObj], querySelectorPerpetualFn env doc g selector (some freshObj))

/-- Element.prototype.querySelectorPerpetual (src/index.js lines 203 to 205):
the identical body installed on the element prototype. -/
def elementProtoQSP {F : Type} (env : Env F) (doc : Doc) (g : GlobalState F)
    (store : List OptionsObj) (optionsRef : Option Nat) (receiver : Nat)
    (selector : String) : List OptionsObj × RegisterOut F :=
  match optionsRef with
  | some i =>
    let updated := objectAssignRootElement (store.getD i {}) receiver
    (store.set i updated, querySelectorPerpetualFn env doc g selector (some updated))
  | none =>
    let freshObj := objectAssignRootElement {} receiver
    (store ++ [freshObj], querySelectorPerpetualFn env doc g selector (some freshObj))

/-! ## Concrete fixtures used by closed theorems and witnesses -/

/-- The body element of the fixture documents. -/
def bodyNode : DomNode := ⟨0, 1, "", ["body"], []⟩

/-- The container div of the test page (src/test.js lines 3 to 8). -/
def containerNode : DomNode := ⟨3, 1, "", ["#container"], [0]⟩

/-- The first pre existing item of the test page. -/
def item1 : DomNode := ⟨1, 1, ("Item 1"), [".item"], [0, 3]⟩

/-- The second pre existing item of the test page. -/
def item2 : DomNode := ⟨2, 1, ("Item 2"), [".item"], [0, 3]⟩

/-- The document of the test page before any mutation. -/
def doc2 : Doc := ⟨[bodyNode, containerNode, item1, item2], 0⟩

/-- An environment interpreting textOf as reading textContent of the fixture
items, as in the map scenario of the specification. -/
def envText : Env String := fun f args =>
  if f = ("textOf") then
    match args.headD .undef with
    | .jelem 1 => .jstr ("Item 1")
    | .jelem 2 => .jstr ("Item 2")
    | _ => JSValue.undef
  else JSValue.undef

/-- The registration call of the synchronous chaining scenario. -/
def registerOut2 : RegisterOut String :=
  querySelectorPerpetualFn envText doc2 freshGlobal (".item") none

/-- The map chained in the same synchronous turn, right after registration. -/
def chained2 : GlobalState String × Nat :=
  handleMap registerOut2.g registerOut2.handle ("textOf") 1

example : registerOut2.scanRan = [1, 2] := rfl
example : registerOut2.scanLog = [] := rfl
example : (chained2.1.regs.getD 0 defaultReg).operations = [⟨("map"), ("textOf"), 1⟩] := rfl

/-- An explicit scope root used by the scope scan counterexample. -/
def rootNode4 : DomNode := ⟨10, 1, "", ["#root"], [0]⟩

/-- An item inside the explicit scope root. -/
def insideNode4 : DomNode := ⟨11, 1, ("in"), [".item"], [0, 10]⟩

/-- An item outside the explicit scope root (its ancestors do not include 10). -/
def outsideNode4 : DomNode := ⟨12, 1, ("out"), [".item"], [0]⟩

/-- The document of the scope root counterexample. -/
def doc4 : Doc := ⟨[bodyNode, rootNode4, insideNode4, outsideNode4], 0⟩

/-- Options selecting node 10 as the explicit rootElement. -/
def opts4 : OptionsObj := { rootElement := some 10 }

/-- Registration with the explicit scope root of the counterexample. -/
def registerOut4 : RegisterOut String :=
  querySelectorPerpetualFn envStub doc4 freshGlobal (".item") (some opts4)

example : registerOut4.scanRan = [11, 12] := rfl

/-- A matching element used by the reappearance witness. -/
def n6 : DomNode := ⟨7, 1, "", [".item"], [0]⟩

/-- A registration with matchReappearance true whose seen set already holds 7. -/
def reg6 : Registration String := ⟨(".item"), true, [7], []⟩

/-- First matching element of the batch abort counterexample. -/
def e71 : DomNode := ⟨21, 1, "", [".item"], [0]⟩

/-- Second matching element of the batch abort counterexample. -/
def e72 : DomNode := ⟨22, 1, "", [".item"], [0]⟩

/-- A registration whose pipeline holds one forEach operation. -/
def reg7 : Registration String := ⟨(".item"), false, [], [⟨("forEach"), ("f"), 1⟩]⟩

/-- The delivery of one record adding both matching elements. -/
def run7 : RunOut String := runRecords envStub (".item") reg7 [⟨[e71, e72]⟩]

example : run7.entered = [21] := rfl
example : run7.ran = [21] := rfl
example : run7.err = some (.typeError ("undefined is not a function")) := rfl

/-- A text node (nodeType 3) used by the batch iteration witness. -/
def t30 : DomNode := ⟨30, 3, ("x"), [], [0]⟩

/-- A non matching element used by the batch iteration witness. -/
def nm31 : DomNode := ⟨31, 1, "", [".other"], [0]⟩

/-- A registration whose pipeline holds one sort operation; the buggy apply
spread leaves sort with an undefined comparator, which does not throw. -/
def reg7w : Registration String := ⟨(".item"), false, [], [⟨("sort"), ("cmp"), 2⟩]⟩

example : (runRecords envStub (".item") reg7w [⟨[t30, e71, nm31]⟩]).err = none := rfl
example : (runRecords envStub (".item") reg7w [⟨[t30, e71, nm31]⟩]).entered = [21] := rfl

/-- A two registration global state used by the independence witness. -/
def g9 : GlobalState String := ⟨some ⟨0, true, true, 0⟩, 1, [defaultReg, defaultReg]⟩

/-! ## Basic lemmas about the WeakMap model -/

theorem wmGet_mono (k j : Nat) (s : List Nat) (h : wmGet k s = true) :
    wmGet k (wmSet j s) = true := by
  unfold wmGet at h
  unfold wmGet wmSet
  split
  · exact h
  · exact decide_eq_true (List.mem_cons_of_mem j (of_decide_eq_true h))

theorem wmGet_wmSet_self (k : Nat) (s : List Nat) : wmGet k (wmSet k s) = true := by
  unfold wmGet wmSet
  split
  · exact decide_eq_true (by assumption)
  · exact decide_eq_true (List.mem_cons_self k s)

theorem wmGet_wmSet_ne (k j : Nat) (s : List Nat) (h : k ≠ j) :
    wmGet k (wmSet j s) = wmGet k s := by
  unfold wmGet wmSet
  split
  · rfl
  · simp [List.mem_cons, h]

/-! ## Lemmas about processCandidate and the processing loops -/

theorem processCandidate_selector {F : Type} (env : Env F) (reg : Registration F)
    (n : DomNode) : (processCandidate env reg n).reg.selector = reg.selector := by
  unfold processCandidate
  split
  · rfl
  · rfl

theorem processCandidate_mr {F : Type} (env : Env F) (reg : Registration F)
    (n : DomNode) :
    (processCandidate env reg n).reg.matchReappearance = reg.matchReappearance := by
  unfold processCandidate
  split
  · rfl
  · rfl

theorem processCandidate_ops {F : Type} (env : Env F) (reg : Registration F)
    (n : DomNode) :
    (processCandidate env reg n).reg.operations = reg.operations := by
  unfold processCandidate
  split
  · rfl
  · rfl

theorem processCandidate_seen_mono {F : Type} (env : Env F) (reg : Registration F)
    (n : DomNode) (k : Nat) (h : wmGet k reg.seen = true) :
    wmGet k (processCandidate env reg n).reg.seen = true := by
  unfold processCandidate
  split
  · exact h
  · exact wmGet_mono k n.id reg.seen h

theorem processCandidate_entered {F : Type} (env : Env F) (reg : Registration F)
    (n : DomNode) : (processCandidate env reg n).entered = [n.id] := by
  unfold processCandidate
  split
  · rfl
  · rfl

theorem runCandidates_fields {F : Type} (env : Env F) (check : DomNode → Bool)
    (nodes : List DomNode) :
    ∀ reg : Registration F,
      (runCandidates env check reg nodes).reg.selector = reg.selector ∧
      (runCandidates env check reg nodes).reg.matchReappearance = reg.matchReappearance ∧
      (runCandidates env check reg nodes).reg.operations = reg.operations := by
  induction nodes with
  | nil => intro reg; exact ⟨rfl, rfl, rfl⟩
  | cons n rest ih =>
    intro reg
    unfold runCandidates
    split
    · dsimp only
      split
      · exact ⟨processCandidate_selector env reg n, processCandidate_mr env reg n,
          processCandidate_ops env reg n⟩
      · have h2 := ih (processCandidate env reg n).reg
        exact ⟨h2.1.trans (processCandidate_selector env reg n),
          h2.2.1.trans (processCandidate_mr env reg n),
          h2.2.2.trans (processCandidate_ops env reg n)⟩
    · exact ih reg

theorem runCandidates_seen_mono {F : Type} (env : Env F) (check : DomNode → Bool)
    (nodes : List DomNode) :
    ∀ (reg : Registration F) (k : Nat), wmGet k reg.seen = true →
      wmGet k (runCandidates env check reg nodes).reg.seen = true := by
  induction nodes with
  | nil => intro reg k h; exact h
  | cons n rest ih =>
    intro reg k h
    unfold runCandidates
    split
    · dsimp only
      split
      · exact processCandidate_seen_mono env reg n k h
      · exact ih (processCandidate env reg n).reg k (processCandidate_seen_mono env reg n k h)
    · exact ih reg k h

/-- Relation between an initial seen set, a final seen set and the processed
ids of one run: every processed id was unseen before and is seen after, and no
id was processed twice. -/
def SeenSpec (s0 s1 : List Nat) (ran : List Nat) : Prop :=
  (∀ k ∈ ran, wmGet k s0 = false ∧ wmGet k s1 = true) ∧ ran.Nodup

theorem SeenSpec_append {s0 s1 s2 r1 r2 : List Nat}
    (h1 : SeenSpec s0 s1 r1) (h2 : SeenSpec s1 s2 r2)
    (mono01 : ∀ k, wmGet k s0 = true → wmGet k s1 = true)
    (mono12 : ∀ k, wmGet k s1 = true → wmGet k s2 = true) :
    SeenSpec s0 s2 (r1 ++ r2) := by
  constructor
  · intro k hk
    rcases List.mem_append.mp hk with hm | hm
    · exact ⟨(h1.1 k hm).1, mono12 k (h1.1 k hm).2⟩
    · refine ⟨?_, (h2.1 k hm).2⟩
      cases hx : wmGet k s0 with
      | false => rfl
      | true => exact absurd ((h2.1 k hm).1.symm.trans (mono01 k hx)) (by simp)
  · refine h1.2.append h2.2 ?_
    intro a ha1 ha2
    exact absurd ((h2.1 a ha2).1.symm.trans (h1.1 a ha1).2) (by simp)

theorem SeenSpec_nil (s : List Nat) : SeenSpec s s [] :=
  ⟨fun k hk => absurd hk (List.not_mem_nil k), List.nodup_nil⟩

theorem processCandidate_spec_mrFalse {F : Type} (env : Env F) (reg : Registration F)
    (n : DomNode) (h : reg.matchReappearance = false) :
    SeenSpec reg.seen (processCandidate env reg n).reg.seen
      (processCandidate env reg n).ran := by
  unfold processCandidate
  split
  · exact SeenSpec_nil reg.seen
  · next hcond =>
    have hget : wmGet n.id reg.seen = false := by
      cases hx : wmGet n.id reg.seen with
      | false => rfl
      | true => exact absurd ⟨h, hx⟩ hcond
    dsimp only
    constructor
    · intro k hk
      have hk2 : k = n.id := List.mem_singleton.mp hk
      subst hk2
      exact ⟨hget, wmGet_wmSet_self n.id reg.seen⟩
    · exact List.nodup_singleton n.id

theorem runCandidates_spec_mrFalse {F : Type} (env : Env F) (check : DomNode → Bool)
    (nodes : List DomNode) :
    ∀ reg : Registration F, reg.matchReappearance = false →
      SeenSpec reg.seen (runCandidates env check reg nodes).reg.seen
        (runCandidates env check reg nodes).ran := by
  induction nodes with
  | nil => intro reg _; exact SeenSpec_nil reg.seen
  | cons n rest ih =>
    intro reg h
    unfold runCandidates
    split
    · dsimp only
      split
      · exact processCandidate_spec_mrFalse env reg n h
      · have hmr2 : (processCandidate env reg n).reg.matchReappearance = false :=
          (processCandidate_mr env reg n).trans h
        exact SeenSpec_append (processCandidate_spec_mrFalse env reg n h)
          (ih (processCandidate env reg n).reg hmr2)
          (fun k hk => processCandidate_seen_mono env reg n k hk)
          (fun k hk => runCandidates_seen_mono env check rest (processCandidate env reg n).reg k hk)
    · exact ih reg h

theorem runRecords_fields {F : Type} (env : Env F) (selector : String)
    (ms : List MutationRecord) :
    ∀ reg : Registration F,
      (runRecords env selector reg ms).reg.selector = reg.selector ∧
      (runRecords env selector reg ms).reg.matchReappearance = reg.matchReappearance ∧
      (runRecords env selector reg ms).reg.operations = reg.operations := by
  induction ms with
  | nil => intro reg; exact ⟨rfl, rfl, rfl⟩
  | cons m rest ih =>
    intro reg
    unfold runRecords
    dsimp only
    have hc := runCandidates_fields env (observerGuard selector) m.addedNodes reg
    split
    · exact hc
    · have h2 := ih (runCandidates env (observerGuard selector) reg m.addedNodes).reg
      exact ⟨h2.1.trans hc.1, h2.2.1.trans hc.2.1, h2.2.2.trans hc.2.2⟩

theorem runRecords_seen_mono {F : Type} (env : Env F) (selector : String)
    (ms : List MutationRecord) :
    ∀ (reg : Registration F) (k : Nat), wmGet k reg.seen = true →
      wmGet k (runRecords env selector reg ms).reg.seen = true := by
  induction ms with
  | nil => intro reg k h; exact h
  | cons m rest ih =>
    intro reg k h
    unfold runRecords
    dsimp only
    have hc := runCandidates_seen_mono env (observerGuard selector) m.addedNodes reg k h
    split
    · exact hc
    · exact ih (runCandidates env (observerGuard selector) reg m.addedNodes).reg k hc

theorem runRecords_spec_mrFalse {F : Type} (env : Env F) (selector : String)
    (ms : List MutationRecord) :
    ∀ reg : Registration F, reg.matchReappearance = false →
      SeenSpec reg.seen (runRecords env selector reg ms).reg.seen
        (runRecords env selector reg ms).ran := by
  induction ms with
  | nil => intro reg _; exact SeenSpec_nil reg.seen
  | cons m rest ih =>
    intro reg h
    unfold runRecords
    dsimp only
    have h1 := runCandidates_spec_mrFalse env (observerGuard selector) m.addedNodes reg h
    split
    · exact h1
    · have hmr2 :
          (runCandidates env (observerGuard selector) reg m.addedNodes).reg.matchReappearance
            = false :=
        (runCandidates_fields env (observerGuard selector) m.addedNodes reg).2.1.trans h
      exact SeenSpec_append h1
        (ih (runCandidates env (observerGuard selector) reg m.addedNodes).reg hmr2)
        (fun k hk => runCandidates_seen_mono env (observerGuard selector) m.addedNodes reg k hk)
        (fun k hk => runRecords_seen_mono env selector rest
          (runCandidates env (observerGuard selector) reg m.addedNodes).reg k hk)

theorem runBatches_fields {F : Type} (env : Env F) (selector : String)
    (bs : List (List MutationRecord)) :
    ∀ reg : Registration F,
      (runBatches env selector reg bs).1.selector = reg.selector ∧
      (runBatches env selector reg bs).1.matchReappearance = reg.matchReappearance ∧
      (runBatches env selector reg bs).1.operations = reg.operations := by
  induction bs with
  | nil => intro reg; exact ⟨rfl, rfl, rfl⟩
  | cons b rest ih =>
    intro reg
    have hr := runRecords_fields env selector b reg
    have h2 := ih (runRecords env selector reg b).reg
    exact ⟨h2.1.trans hr.1, h2.2.1.trans hr.2.1, h2.2.2.trans hr.2.2⟩

theorem runBatches_seen_mono {F : Type} (env : Env F) (selector : String)
    (bs : List (List MutationRecord)) :
    ∀ (reg : Registration F) (k : Nat), wmGet k reg.seen = true →
      wmGet k (runBatches env selector reg bs).1.seen = true := by
  induction bs with
  | nil => intro reg k h; exact h
  | cons b rest ih =>
    intro reg k h
    exact ih (runRecords env selector reg b).reg k (runRecords_seen_mono env selector b reg k h)

theorem runBatches_spec_mrFalse {F : Type} (env : Env F) (selector : String)
    (bs : List (List MutationRecord)) :
    ∀ reg : Registration F, reg.matchReappearance = false →
      SeenSpec reg.seen (runBatches env selector reg bs).1.seen
        (runBatches env selector reg bs).2.2 := by
  induction bs with
  | nil => intro reg _; exact SeenSpec_nil reg.seen
  | cons b rest ih =>
    intro reg h
    have h1 := runRecords_spec_mrFalse env selector b reg h
    have hmr2 : (runRecords env selector reg b).reg.matchReappearance = false :=
      (runRecords_fields env selector b reg).2.1.trans h
    exact SeenSpec_append h1 (ih (runRecords env selector reg b).reg hmr2)
      (fun k hk => runRecords_seen_mono env selector b reg k hk)
      (fun k hk => runBatches_seen_mono env selector rest (runRecords env selector reg b).reg k hk)

theorem runScanThenBatches_spec_mrFalse {F : Type} (env : Env F) (selector : String)
    (reg : Registration F) (h : reg.matchReappearance = false)
    (scanNodes : List DomNode) (batches : List (List MutationRecord)) :
    SeenSpec reg.seen (runScanThenBatches env selector reg scanNodes batches).1.seen
      (runScanThenBatches env selector reg scanNodes batches).2.2 := by
  unfold runScanThenBatches
  dsimp only
  have hmr2 : (runCandidates env (fun _ => true) reg scanNodes).reg.matchReappearance = false :=
    (runCandidates_fields env (fun _ => true) scanNodes reg).2.1.trans h
  exact SeenSpec_append (runCandidates_spec_mrFalse env (fun _ => true) scanNodes reg h)
    (runBatches_spec_mrFalse env selector batches
      (runCandidates env (fun _ => true) reg scanNodes).reg hmr2)
    (fun k hk => runCandidates_seen_mono env (fun _ => true) scanNodes reg k hk)
    (fun k hk => runBatches_seen_mono env selector batches
      (runCandidates env (fun _ => true) reg scanNodes).reg k hk)

theorem runScanThenBatches_seen_mono {F : Type} (env : Env F) (selector : String)
    (reg : Registration F) (scanNodes : List DomNode)
    (batches : List (List MutationRecord)) (k : Nat) (h : wmGet k reg.seen = true) :
    wmGet k (runScanThenBatches env selector reg scanNodes batches).1.seen = true := by
  unfold runScanThenBatches
  dsimp only
  exact runBatches_seen_mono env selector batches
    (runCandidates env (fun _ => true) reg scanNodes).reg k
    (runCandidates_seen_mono env (fun _ => true) scanNodes reg k h)

/-! ## Lemmas about the matchReappearance true path -/

theorem processCandidate_mrTrue {F : Type} (env : Env F) (reg : Registration F)
    (n : DomNode) (h : reg.matchReappearance = true) :
    (processCandidate env reg n).ran = [n.id] := by
  unfold processCandidate
  split
  · next hcond => rw [h] at hcond; exact absurd hcond.1 (by simp)
  · rfl

theorem runCandidates_single_mrTrue {F : Type} (env : Env F) (check : DomNode → Bool)
    (reg : Registration F) (n : DomNode) (h : reg.matchReappearance = true)
    (hg : check n = true) :
    (runCandidates env check reg [n]).ran = [n.id] := by
  unfold runCandidates
  rw [if_pos hg]
  dsimp only
  split
  · exact processCandidate_mrTrue env reg n h
  · rw [processCandidate_mrTrue env reg n h]
    rfl

theorem runRecords_single_mrTrue {F : Type} (env : Env F) (selector : String)
    (reg : Registration F) (n : DomNode) (h : reg.matchReappearance = true)
    (hg : observerGuard selector n = true) :
    (runRecords env selector reg [⟨[n]⟩]).ran = [n.id] := by
  have hran := runCandidates_single_mrTrue env (observerGuard selector) reg n h hg
  unfold runRecords
  dsimp only
  split
  · exact hran
  · rw [hran]
    rfl

theorem runBatches_replicate_mrTrue {F : Type} (env : Env F) (selector : String)
    (n : DomNode) (hg : observerGuard selector n = true) (k : Nat) :
    ∀ reg : Registration F, reg.matchReappearance = true →
      (runBatches env selector reg (List.replicate k [⟨[n]⟩])).2.2 =
        List.replicate k n.id := by
  induction k with
  | zero => intro reg _; rfl
  | succ k2 ih =>
    intro reg h
    show (runBatches env selector reg ([⟨[n]⟩] :: List.replicate k2 [⟨[n]⟩])).2.2 = _
    unfold runBatches
    dsimp only
    rw [runRecords_single_mrTrue env selector reg n h hg]
    rw [ih (runRecords env selector reg [⟨[n]⟩]).reg
      ((runRecords_fields env selector [⟨[n]⟩] reg).2.1.trans h)]
    rfl

theorem count_replicate_self (a : Nat) (k : Nat) : (List.replicate k a).count a = k := by
  induction k with
  | zero => rfl
  | succ k2 ih => rw [List.replicate_succ, List.count_cons_self, ih]

/-! ## Lemmas about which nodes enter the process element block -/

theorem runCandidates_entered_noErr {F : Type} (env : Env F) (check : DomNode → Bool)
    (nodes : List DomNode) :
    ∀ reg : Registration F, (runCandidates env check reg nodes).err = none →
      (runCandidates env check reg nodes).entered =
        (nodes.filter check).map (fun n => n.id) := by
  induction nodes with
  | nil => intro reg _; rfl
  | cons n rest ih =>
    intro reg herr
    cases hc : check n with
    | true =>
      unfold runCandidates at herr ⊢
      rw [if_pos hc] at herr ⊢
      dsimp only at herr ⊢
      cases hpe : (processCandidate env reg n).err with
      | some e =>
        rw [hpe] at herr
        exact Option.noConfusion herr
      | none =>
        rw [hpe] at herr
        have h2 := ih (processCandidate env reg n).reg herr
        show (processCandidate env reg n).entered ++
          (runCandidates env check (processCandidate env reg n).reg rest).entered = _
        rw [processCandidate_entered, h2, List.filter_cons_of_pos hc]
        rfl
    | false =>
      unfold runCandidates at herr ⊢
      rw [if_neg (by simp [hc])] at herr ⊢
      rw [ih reg herr, List.filter_cons_of_neg (by simp [hc])]

theorem runCandidates_entered_sub {F : Type} (env : Env F) (check : DomNode → Bool)
    (nodes : List DomNode) :
    ∀ (reg : Registration F) (k : Nat), k ∈ (runCandidates env check reg nodes).entered →
      ∃ n, n ∈ nodes ∧ check n = true ∧ n.id = k := by
  induction nodes with
  | nil => intro reg k hk; exact absurd hk (List.not_mem_nil k)
  | cons n rest ih =>
    intro reg k hk
    cases hc : check n with
    | true =>
      unfold runCandidates at hk
      rw [if_pos hc] at hk
      dsimp only at hk
      cases hpe : (processCandidate env reg n).err with
      | some e =>
        rw [hpe] at hk
        have hk2 : k ∈ (processCandidate env reg n).entered := hk
        rw [processCandidate_entered] at hk2
        exact ⟨n, List.mem_cons_self n rest, hc, (List.mem_singleton.mp hk2).symm⟩
      | none =>
        rw [hpe] at hk
        have hk2 : k ∈ (processCandidate env reg n).entered ++
            (runCandidates env check (processCandidate env reg n).reg rest).entered := hk
        rcases List.mem_append.mp hk2 with hm | hm
        · rw [processCandidate_entered] at hm
          exact ⟨n, List.mem_cons_self n rest, hc, (List.mem_singleton.mp hm).symm⟩
        · rcases ih (processCandidate env reg n).reg k hm with ⟨n2, hn2, hcn2, hid⟩
          exact ⟨n2, List.mem_cons_of_mem n hn2, hcn2, hid⟩
    | false =>
      unfold runCandidates at hk
      rw [if_neg (by simp [hc])] at hk
      rcases ih reg k hk with ⟨n2, hn2, hcn2, hid⟩
      exact ⟨n2, List.mem_cons_of_mem n hn2, hcn2, hid⟩

theorem runRecords_entered_noErr {F : Type} (env : Env F) (selector : String)
    (ms : List MutationRecord) :
    ∀ reg : Registration F, (runRecords env selector reg ms).err = none →
      (runRecords env selector reg ms).entered =
        ((allAddedNodes ms).filter (observerGuard selector)).map (fun n => n.id) := by
  induction ms with
  | nil => intro reg _; rfl
  | cons m rest ih =>
    intro reg herr
    unfold runRecords at herr ⊢
    dsimp only at herr ⊢
    cases hpe : (runCandidates env (observerGuard selector) reg m.addedNodes).err with
    | some e =>
      rw [hpe] at herr
      exact Option.noConfusion herr
    | none =>
      rw [hpe] at herr
      have h1 := runCandidates_entered_noErr env (observerGuard selector) m.addedNodes reg hpe
      have h2 := ih (runCandidates env (observerGuard selector) reg m.addedNodes).reg herr
      show (runCandidates env (observerGuard selector) reg m.addedNodes).entered ++
        (runRecords env selector
          (runCandidates env (observerGuard selector) reg m.addedNodes).reg rest).entered = _
      rw [h1, h2]
      show _ = ((m.addedNodes ++ allAddedNodes rest).filter (observerGuard selector)).map _
      rw [List.filter_append, List.map_append]

theorem runRecords_entered_sub {F : Type} (env : Env F) (selector : String)
    (ms : List MutationRecord) :
    ∀ (reg : Registration F) (k : Nat), k ∈ (runRecords env selector reg ms).entered →
      ∃ n, n ∈ allAddedNodes ms ∧ observerGuard selector n = true ∧ n.id = k := by
  induction ms with
  | nil => intro reg k hk; exact absurd hk (List.not_mem_nil k)
  | cons m rest ih =>
    intro reg k hk
    unfold runRecords at hk
    dsimp only at hk
    cases hpe : (runCandidates env (observerGuard selector) reg m.addedNodes).err with
    | some e =>
      rw [hpe] at hk
      have hk2 : k ∈ (runCandidates env (observerGuard selector) reg m.addedNodes).entered := hk
      rcases runCandidates_entered_sub env (observerGuard selector) m.addedNodes reg k hk2 with
        ⟨n2, hn2, hcn2, hid⟩
      exact ⟨n2, List.mem_append_left _ hn2, hcn2, hid⟩
    | none =>
      rw [hpe] at hk
      have hk2 : k ∈ (runCandidates env (observerGuard selector) reg m.addedNodes).entered ++
          (runRecords env selector
            (runCandidates env (observerGuard selector) reg m.addedNodes).reg rest).entered := hk
      rcases List.mem_append.mp hk2 with hm | hm
      · rcases runCandidates_entered_sub env (observerGuard selector) m.addedNodes reg k hm with
          ⟨n2, hn2, hcn2, hid⟩
        exact ⟨n2, List.mem_append_left _ hn2, hcn2, hid⟩
      · rcases ih (runCandidates env (observerGuard selector) reg m.addedNodes).reg k hm with
          ⟨n2, hn2, hcn2, hid⟩
        exact ⟨n2, List.mem_append_right _ hn2, hcn2, hid⟩

/-! ## Lemmas about what applyOperations actually invokes -/

theorem headD_applyFnArgList {F : Type} (arity : Nat) :
    (applyFnArgList (F := F) arity).headD JSValue.undef = JSValue.undef := by
  cases arity with
  | zero => rfl
  | succ k => rfl

theorem arrayMethodCall_applyArgs_log {F : Type} (env : Env F) (name : String)
    (thisVal : JSValue F) (arity : Nat) :
    (arrayMethodCall env name thisVal (applyFnArgList arity)).2 = [] := by
  unfold arrayMethodCall
  rw [headD_applyFnArgList]
  split <;> first
    | rfl
    | (split <;> first
        | rfl
        | (split <;> first
            | rfl
            | (split <;> rfl)))

theorem applyOpsGo_log {F : Type} (env : Env F) (ops : List (Operation F)) :
    ∀ acc : Except JsErr (JSValue F) × List (CallRec F),
      (applyOpsGo env acc ops).2 = acc.2 := by
  induction ops with
  | nil => intro acc; rfl
  | cons op rest ih =>
    intro acc
    match acc with
    | (.error e, log) => exact ih (.error e, log)
    | (.ok prev, log) =>
      show (applyOpsGo env ((arrayMethodCall env op.name prev (applyFnArgList op.arity)).1,
        log ++ (arrayMethodCall env op.name prev (applyFnArgList op.arity)).2) rest).2 = log
      rw [ih]
      show log ++ (arrayMethodCall env op.name prev (applyFnArgList op.arity)).2 = log
      rw [arrayMethodCall_applyArgs_log]
      exact List.append_nil log

theorem applyOperations_log_nil {F : Type} (env : Env F) (ops : List (Operation F))
    (elementId : Nat) : (applyOperations env ops elementId).2 = [] :=
  applyOpsGo_log env ops (.ok (.jarr [.jelem elementId]), [])

/-! ## List access helpers -/

theorem getD_set_self {α : Type} :
    ∀ (l : List α) (i : Nat) (a d : α), i < l.length → (l.set i a).getD i d = a := by
  intro l
  induction l with
  | nil => intro i a d hi; exact absurd hi (by simp)
  | cons x xs ih =>
    intro i a d hi
    cases i with
    | zero => rfl
    | succ j => exact ih j a d (Nat.lt_of_succ_lt_succ hi)

theorem getD_set_ne {α : Type} :
    ∀ (l : List α) (i j : Nat) (a d : α), i ≠ j → (l.set i a).getD j d = l.getD j d := by
  intro l
  induction l with
  | nil => intro i j a d _; rfl
  | cons x xs ih =>
    intro i j a d hij
    cases i with
    | zero =>
      cases j with
      | zero => exact absurd rfl hij
      | succ j2 => rfl
    | succ i2 =>
      cases j with
      | zero => rfl
      | succ j2 => exact ih i2 j2 a d (fun hh => hij (by rw [hh]))

theorem getD_append_self {α : Type} :
    ∀ (l : List α) (a d : α), (l ++ [a]).getD l.length d = a := by
  intro l
  induction l with
  | nil => intro a d; rfl
  | cons x xs ih => intro a d; exact ih a d

/-! ## Lemmas about the registration function -/

theorem registerFn_preserves_observer {F : Type} (env : Env F) (doc : Doc)
    (g : GlobalState F) (sel : String) (opts : Option OptionsObj)
    (ob : ObserverState) (hc : g.observer = some ob) :
    (querySelectorPerpetualFn env doc g sel opts).g.observer = some ob ∧
    (querySelectorPerpetualFn env doc g sel opts).g.observersCreated = g.observersCreated := by
  unfold querySelectorPerpetualFn
  dsimp only
  rw [hc]
  exact ⟨hc, rfl⟩

theorem runRegisterCalls_preserves {F : Type} (env : Env F) (doc : Doc)
    (calls : List (String × Option OptionsObj)) :
    ∀ (g : GlobalState F) (ob : ObserverState), g.observer = some ob →
      (runRegisterCalls env doc g calls).observer = some ob ∧
      (runRegisterCalls env doc g calls).observersCreated = g.observersCreated := by
  induction calls with
  | nil => intro g ob hc; exact ⟨hc, rfl⟩
  | cons c rest ih =>
    intro g ob hc
    have h1 := registerFn_preserves_observer env doc g c.1 c.2 ob hc
    have h2 := ih (querySelectorPerpetualFn env doc g c.1 c.2).g ob h1.1
    exact ⟨h2.1, h2.2.trans h1.2⟩

theorem processCandidate_nilOps {F : Type} (env : Env F) (reg : Registration F)
    (n : DomNode) (hops : reg.operations = []) :
    (processCandidate env reg n).err = none ∧ (processCandidate env reg n).log = [] := by
  unfold processCandidate
  split
  · exact ⟨rfl, rfl⟩
  · dsimp only
    rw [hops]
    exact ⟨rfl, rfl⟩

theorem runCandidates_ran_full {F : Type} (env : Env F) (nodes : List DomNode) :
    ∀ reg : Registration F, reg.operations = [] →
      (∀ n ∈ nodes, wmGet n.id reg.seen = false) →
      (nodes.map (fun n => n.id)).Nodup →
      (runCandidates env (fun _ => true) reg nodes).ran = nodes.map (fun n => n.id) := by
  induction nodes with
  | nil => intro reg _ _ _; rfl
  | cons n rest ih =>
    intro reg hops hfresh hnd
    have hfr : wmGet n.id reg.seen = false := hfresh n (List.mem_cons_self n rest)
    have hpcreg : (processCandidate env reg n).reg.seen = wmSet n.id reg.seen := by
      unfold processCandidate
      split
      · next hcond => exact absurd (hfr.symm.trans hcond.2) (by simp)
      · rfl
    have hran : (processCandidate env reg n).ran = [n.id] := by
      unfold processCandidate
      split
      · next hcond => exact absurd (hfr.symm.trans hcond.2) (by simp)
      · rfl
    have hnd2 := List.nodup_cons.mp hnd
    unfold runCandidates
    rw [if_pos rfl]
    dsimp only
    cases hpe : (processCandidate env reg n).err with
    | some e =>
      exact absurd ((processCandidate_nilOps env reg n hops).1.symm.trans hpe)
        (by simp)
    | none =>
      show (processCandidate env reg n).ran ++
        (runCandidates env (fun _ => true) (processCandidate env reg n).reg rest).ran = _
      rw [hran]
      rw [ih (processCandidate env reg n).reg
        ((processCandidate_ops env reg n).trans hops)
        (fun m hm => by
          rw [hpcreg, wmGet_wmSet_ne m.id n.id reg.seen
            (fun hh => hnd2.1 (by
              have hmm : m.id ∈ List.map (fun x => x.id) rest :=
                List.mem_map_of_mem (fun x => x.id) hm
              rw [hh] at hmm
              exact hmm))]
          exact hfresh m (List.mem_cons_of_mem n hm))
        hnd2.2]
      rfl

/-- The registration value one call creates, as a function of the call inputs
alone; querySelectorPerpetualFn appends exactly this to the registration list
(see registerFn_regs), which shows the new seen set and pipeline share nothing
with previously existing registrations. -/
def newRegOf {F : Type} (env : Env F) (doc : Doc) (selector : String)
    (options : Option OptionsObj) : Registration F :=
  let merged := mergeOptions doc options
  let reg0 : Registration F :=
    { selector := selector
      matchReappearance := merged.matchReappearance
      seen := []
      operations := [] }
  if merged.matchExisting then
    (runCandidates env (fun _ => true) reg0 (querySelectorAllDoc doc selector)).reg
  else reg0

theorem registerFn_regs {F : Type} (env : Env F) (doc : Doc) (g : GlobalState F)
    (sel : String) (opts : Option OptionsObj) :
    (querySelectorPerpetualFn env doc g sel opts).g.regs =
      g.regs ++ [newRegOf env doc sel opts] := by
  unfold querySelectorPerpetualFn newRegOf
  dsimp only
  cases hob : g.observer with
  | none => split_ifs <;> rfl
  | some ob => split_ifs <;> rfl

/-! ## The claims -/

/-- Claim C1: processing an element does start the pipeline from the singleton
sequence holding only that element and threads the declared operations left to
right through operations.reduce, but the mirror breaks at the callback:
Function.prototype.apply spreads the user function into undefined arguments,
so no user supplied function is ever invoked by applyOperations (its
invocation log is always empty) and a forEach step throws a TypeError, while
the mirror described by the specification invokes the function on the
element. -/
theorem c1_pipeline_callback_bug :
    (∀ (F : Type) (env : Env F) (ops : List (Operation F)) (elementId : Nat),
      (applyOperations env ops elementId).2 = []) ∧
    applyOperations envStub [⟨("forEach"), ("f"), 1⟩] 1 =
      (.error (.typeError ("undefined is not a function")), []) ∧
    applyOperationsSpec envStub [⟨("forEach"), ("f"), 1⟩] 1 =
      (.ok .undef, [(("f"), [.jelem 1, .jnum 0, .jarr [.jelem 1]])]) :=
  ⟨fun _ env ops elementId => applyOperations_log_nil env ops elementId, rfl, rfl⟩

/-- Claim C2: the registering call runs the matchExisting scan before the
caller can chain anything, with the still empty pipeline, marking both
existing items seen; the map chained in the same synchronous turn only
appends to the pipeline and returns the handle, so textOf never runs on the
pre existing elements and no Item 1, Item 2 list is produced, although the
deferred scan the specification resolves to would produce exactly those
values for the same two elements. -/
theorem c2_sync_chain_misses_existing :
    registerOut2.scanRan = [1, 2] ∧
    registerOut2.scanLog = [] ∧
    registerOut2.scanErr = none ∧
    (chained2.1.regs.getD 0 defaultReg).operations = [⟨("map"), ("textOf"), 1⟩] ∧
    chained2.2 = 0 ∧
    (querySelectorAllDoc doc2 (".item")).map
        (fun n => (applyOperationsSpec envText [⟨("map"), ("textOf"), 1⟩] n.id).1) =
      [.ok (.jarr [.jstr ("Item 1")]), .ok (.jarr [.jstr ("Item 2")])] :=
  ⟨rfl, rfl, rfl, rfl, rfl, rfl⟩

/-- Claim C3: starting from the fresh global state, the first registration
call, and only it, constructs the single observer, subscribed to the root
resolved from the first call options with childList and subtree coverage, and
every later call, whatever its selector or root, leaves that observer and the
creation count untouched, so only the first call scope root is ever watched. -/
theorem c3_singleton_observer {F : Type} (env : Env F) (doc : Doc) (sel : String)
    (opts : Option OptionsObj) (rest : List (String × Option OptionsObj)) :
    (runRegisterCalls env doc freshGlobal ((sel, opts) :: rest)).observersCreated = 1 ∧
    (runRegisterCalls env doc freshGlobal ((sel, opts) :: rest)).observer =
      some ⟨(mergeOptions doc opts).rootElement, true, true, 0⟩ := by
  have hfirst :
      (querySelectorPerpetualFn env doc (freshGlobal (F := F)) sel opts).g.observer =
        some ⟨(mergeOptions doc opts).rootElement, true, true, 0⟩ := rfl
  have h2 := runRegisterCalls_preserves env doc rest
    (querySelectorPerpetualFn env doc freshGlobal sel opts).g
    ⟨(mergeOptions doc opts).rootElement, true, true, 0⟩ hfirst
  exact ⟨h2.2.trans rfl, h2.1⟩

/-- Claim C4 counterexample: with an explicit rootElement (node 10) the
matchExisting scan still processes node 12, which matches the selector but
lies outside the scope root, so elements outside the scope root are scanned,
contradicting the claim. -/
theorem c4_counterexample :
    (mergeOptions doc4 (some opts4)).rootElement = 10 ∧
    outsideNode4.ancestors.contains 10 = false ∧
    registerOut4.scanRan = [11, 12] ∧
    wmGet 12 ((registerOut4.g.regs.getD 0 defaultReg).seen) = true :=
  ⟨rfl, rfl, rfl, rfl⟩

/-- Claim C4 amended: when matchExisting is true, the registration time scan
queries the whole document, not the scope root, for all elements currently
matching the selector, in document order, and feeds each of them through the
process element block; the supplied rootElement does not restrict the scan. -/
theorem c4_amended_scan_documentwide {F : Type} (env : Env F) (doc : Doc)
    (g : GlobalState F) (sel : String) (opts : Option OptionsObj)
    (hme : (mergeOptions doc opts).matchExisting = true)
    (hnd : ((querySelectorAllDoc doc sel).map (fun n => n.id)).Nodup) :
    (querySelectorPerpetualFn env doc g sel opts).scanRan =
      (querySelectorAllDoc doc sel).map (fun n => n.id) := by
  unfold querySelectorPerpetualFn
  dsimp only
  rw [if_pos hme]
  exact runCandidates_ran_full env (querySelectorAllDoc doc sel) _ rfl (fun m hm => rfl) hnd

/-- Witness for the amended C4 theorem at the fixture document. -/
theorem c4_amended_scan_documentwide_witness :
    (mergeOptions doc2 none).matchExisting = true ∧
    (querySelectorPerpetualFn envStub doc2 freshGlobal (".item") none).scanRan = [1, 2] :=
  ⟨rfl, (c4_amended_scan_documentwide envStub doc2 freshGlobal (".item") none rfl
    (by decide)).trans rfl⟩

/-- Claim C5: within one registration with matchReappearance false, over the
initial scan and any later sequence of mutation batches, an element identity
already in the seen set is never run through the pipeline by any later step,
no identity is run twice, and seen entries are never removed. -/
theorem c5_seen_never_reprocessed {F : Type} (env : Env F) (selector : String)
    (reg : Registration F) (h : reg.matchReappearance = false)
    (scanNodes : List DomNode) (batches : List (List MutationRecord)) :
    (∀ k, wmGet k reg.seen = true →
      wmGet k (runScanThenBatches env selector reg scanNodes batches).1.seen = true) ∧
    (∀ k, wmGet k reg.seen = true →
      k ∉ (runScanThenBatches env selector reg scanNodes batches).2.2) ∧
    (runScanThenBatches env selector reg scanNodes batches).2.2.Nodup := by
  have hs := runScanThenBatches_spec_mrFalse env selector reg h scanNodes batches
  refine ⟨fun k hk => runScanThenBatches_seen_mono env selector reg scanNodes batches k hk,
    fun k hk hmem => ?_, hs.2⟩
  exact absurd ((hs.1 k hmem).1.symm.trans hk) (by simp)

/-- A matching element whose identity the C5 witness registration has seen. -/
def n5 : DomNode := ⟨5, 1, "", [".item"], [0]⟩

/-- The C5 witness registration: matchReappearance false, id 5 already seen. -/
def regC5 : Registration String := ⟨(".item"), false, [5], []⟩

/-- Witness for C5: a trace that rescans and reinserts node 5 never runs the
pipeline on it again. -/
theorem c5_witness :
    regC5.matchReappearance = false ∧
    wmGet 5 regC5.seen = true ∧
    5 ∉ (runScanThenBatches envStub (".item") regC5 [n5] [[⟨[n5]⟩]]).2.2 :=
  ⟨rfl, rfl,
    (c5_seen_never_reprocessed envStub (".item") regC5 rfl [n5] [[⟨[n5]⟩]]).2.1 5 rfl⟩

/-- Claim C6: with matchReappearance true the seen check is bypassed for
mutation driven matches: a delivery inserting a matching element always runs
the pipeline on it, whatever the seen set already holds, and k successive
insertions of the same element run it k times, once per reappearance. -/
theorem c6_reappearance_bypass {F : Type} (env : Env F) (reg : Registration F)
    (h : reg.matchReappearance = true) (n : DomNode) (hn : n.nodeType = 1)
    (hm : nodeMatches n reg.selector = true) (k : Nat) :
    (runRecords env reg.selector reg [⟨[n]⟩]).ran = [n.id] ∧
    (runBatches env reg.selector reg (List.replicate k [⟨[n]⟩])).2.2.count n.id = k := by
  have hg : observerGuard reg.selector n = true := by
    unfold observerGuard
    rw [hm, decide_eq_true hn]
    rfl
  refine ⟨runRecords_single_mrTrue env reg.selector reg n h hg, ?_⟩
  rw [runBatches_replicate_mrTrue env reg.selector n hg k reg h]
  exact count_replicate_self n.id k

/-- Witness for C6: node 7 is already seen, yet each of two deliveries runs
the pipeline on it again. -/
theorem c6_witness :
    reg6.matchReappearance = true ∧
    wmGet 7 reg6.seen = true ∧
    (runRecords envStub (".item") reg6 [⟨[n6]⟩]).ran = [7] ∧
    (runBatches envStub (".item") reg6 (List.replicate 2 [⟨[n6]⟩])).2.2.count 7 = 2 :=
  ⟨rfl, rfl,
    (c6_reappearance_bypass envStub reg6 rfl n6 rfl (by decide) 2).1,
    (c6_reappearance_bypass envStub reg6 rfl n6 rfl (by decide) 2).2⟩

/-- Claim C7 counterexample: one record adds two elements that both match the
selector, but the pipeline throw on the first aborts the callback, so the
second added node is never checked or processed although it is an element
matching the selector, contradicting the claimed equivalence. -/
theorem c7_counterexample :
    observerGuard (".item") e72 = true ∧
    run7.entered = [21] ∧
    run7.ran = [21] ∧
    run7.err = some (.typeError ("undefined is not a function")) ∧
    wmGet 22 run7.reg.seen = false :=
  ⟨rfl, rfl, rfl, rfl, rfl⟩

/-- Claim C7 amended: the callback checks the added nodes of every record
independently and in order only until a pipeline error aborts it; when no
error is thrown, the nodes that enter the process element block are exactly
the added element nodes matching the selector, in order; and in every case
each entered id comes from an added element node matching the selector, so
text and comment nodes are always ignored without error. -/
theorem c7_amended_batch_iteration {F : Type} (env : Env F) (selector : String)
    (reg : Registration F) (mutations : List MutationRecord) :
    ((runRecords env selector reg mutations).err = none →
      (runRecords env selector reg mutations).entered =
        ((allAddedNodes mutations).filter (observerGuard selector)).map (fun n => n.id)) ∧
    (∀ k ∈ (runRecords env selector reg mutations).entered,
      ∃ n, n ∈ allAddedNodes mutations ∧ observerGuard selector n = true ∧ n.id = k) :=
  ⟨fun herr => runRecords_entered_noErr env selector mutations reg herr,
    fun k hk => runRecords_entered_sub env selector mutations reg k hk⟩

/-- Witness for the amended C7 theorem: an error free delivery (sort does not
throw) with a text node, a matching element and a non matching element enters
exactly the matching element. -/
theorem c7_amended_witness :
    (runRecords envStub (".item") reg7w [⟨[t30, e71, nm31]⟩]).err = none ∧
    (runRecords envStub (".item") reg7w [⟨[t30, e71, nm31]⟩]).entered = [21] :=
  ⟨rfl,
    ((c7_amended_batch_iteration envStub (".item") reg7w [⟨[t30, e71, nm31]⟩]).1 rfl).trans rfl⟩

/-- Claim C8: the handle object exposes exactly the four methods forEach, map,
filter and sort; each appends one name and function pair to the pipeline of
its own registration and returns the same handle; reduce, every, some and
find are not among the handle methods. -/
theorem c8_handle_surface {F : Type} (g : GlobalState F) (h : Nat) (func : F)
    (arity : Nat) (hh : h < g.regs.length) :
    handleMethodNames = [("forEach"), ("map"), ("filter"), ("sort")] ∧
    (("reduce") ∉ handleMethodNames ∧ ("every") ∉ handleMethodNames ∧
      ("some") ∉ handleMethodNames ∧ ("find") ∉ handleMethodNames) ∧
    ((handleForEach g h func arity).2 = h ∧
      ((handleForEach g h func arity).1.regs.getD h defaultReg).operations =
        (g.regs.getD h defaultReg).operations ++ [⟨("forEach"), func, arity⟩]) ∧
    ((handleMap g h func arity).2 = h ∧
      ((handleMap g h func arity).1.regs.getD h defaultReg).operations =
        (g.regs.getD h defaultReg).operations ++ [⟨("map"), func, arity⟩]) ∧
    ((handleFilter g h func arity).2 = h ∧
      ((handleFilter g h func arity).1.regs.getD h defaultReg).operations =
        (g.regs.getD h defaultReg).operations ++ [⟨("filter"), func, arity⟩]) ∧
    ((handleSort g h func arity).2 = h ∧
      ((handleSort g h func arity).1.regs.getD h defaultReg).operations =
        (g.regs.getD h defaultReg).operations ++ [⟨("sort"), func, arity⟩]) := by
  have hset : ∀ (name : String) (fn : F) (ar : Nat),
      ((chainAdd g h name fn ar).regs.getD h defaultReg).operations =
        (g.regs.getD h defaultReg).operations ++ [⟨name, fn, ar⟩] := by
    intro name fn ar
    unfold chainAdd addOperation
    dsimp only
    rw [getD_set_self g.regs h _ defaultReg hh]
  refine ⟨rfl, ⟨by decide, by decide, by decide, by decide⟩,
    ⟨rfl, hset ("forEach") func arity⟩, ⟨rfl, hset ("map") func arity⟩,
    ⟨rfl, hset ("filter") func arity⟩, ⟨rfl, hset ("sort") func arity⟩⟩

/-- The one registration global state of the C8 witness. -/
def g8 : GlobalState String := ⟨none, 0, [defaultReg]⟩

/-- Witness for C8: one map chain call on a concrete handle. -/
theorem c8_witness :
    (0 < g8.regs.length) ∧
    ((handleMap g8 0 ("g") 1).1.regs.getD 0 defaultReg).operations =
      [⟨("map"), ("g"), 1⟩] ∧
    (handleMap g8 0 ("g") 1).2 = 0 :=
  ⟨by decide, ((c8_handle_surface g8 0 ("g") 1 (by decide)).2.2.2.1.2).trans rfl,
    (c8_handle_surface g8 0 ("g") 1 (by decide)).2.2.2.1.1⟩

/-- Claim C9: registrations are independent: the registration value a call
appends is a function of the call inputs alone (fresh seen set and empty
pipeline, no dependence on already existing registrations); appending an
operation through one handle leaves every other registration untouched; and a
mutation delivery updates only the registration bound to the observer. -/
theorem c9_registration_independence {F : Type} (env : Env F) (doc : Doc)
    (g g2 : GlobalState F) (sel : String) (opts : Option OptionsObj)
    (name : String) (func : F) (arity : Nat) (i j : Nat) (hij : i ≠ j)
    (mutations : List MutationRecord) (ob : ObserverState)
    (hob : g.observer = some ob) (hj : j ≠ ob.boundReg) :
    (querySelectorPerpetualFn env doc g sel opts).g.regs.getD g.regs.length defaultReg =
      (querySelectorPerpetualFn env doc g2 sel opts).g.regs.getD g2.regs.length defaultReg ∧
    (chainAdd g i name func arity).regs.getD j defaultReg = g.regs.getD j defaultReg ∧
    (deliverMutations env g mutations).1.regs.getD j defaultReg =
      g.regs.getD j defaultReg := by
  refine ⟨?_, ?_, ?_⟩
  · rw [registerFn_regs env doc g sel opts, registerFn_regs env doc g2 sel opts,
      getD_append_self, getD_append_self]
  · unfold chainAdd
    dsimp only
    exact getD_set_ne g.regs i j _ defaultReg hij
  · unfold deliverMutations
    rw [hob]
    dsimp only
    exact getD_set_ne g.regs ob.boundReg j _ defaultReg (fun hh => hj hh.symm)

/-- Witness for C9: chaining on handle 0 and delivering to the observer bound
registration 0 leave registration 1 untouched. -/
theorem c9_witness :
    (chainAdd g9 0 ("map") ("g") 1).regs.getD 1 defaultReg = g9.regs.getD 1 defaultReg ∧
    (deliverMutations envStub g9 []).1.regs.getD 1 defaultReg = g9.regs.getD 1 defaultReg :=
  ⟨(c9_registration_independence envStub doc2 g9 g9 (".x") none ("map") ("g") 1 0 1
      (by decide) [] ⟨0, true, true, 0⟩ rfl (by decide)).2.1,
    (c9_registration_independence envStub doc2 g9 g9 (".x") none ("map") ("g") 1 0 1
      (by decide) [] ⟨0, true, true, 0⟩ rfl (by decide)).2.2⟩

/-- Claim C10: the prototype convenience bindings mutate the options object the
caller passed, in place: after the call the same store slot has rootElement
set to the receiver, its other fields and the store length unchanged, and the
element binding behaves identically to the document binding. -/
theorem c10_options_mutated_in_place {F : Type} (env : Env F) (doc : Doc)
    (g : GlobalState F) (store : List OptionsObj) (i : Nat) (receiver : Nat)
    (selector : String) (hi : i < store.length) :
    ((documentProtoQSP env doc g store (some i) receiver selector).1.getD i {}).rootElement =
      some receiver ∧
    ((documentProtoQSP env doc g store (some i) receiver selector).1.getD i {}).matchExisting =
      (store.getD i {}).matchExisting ∧
    ((documentProtoQSP env doc g store (some i) receiver selector).1.getD i {}).matchReappearance =
      (store.getD i {}).matchReappearance ∧
    (documentProtoQSP env doc g store (some i) receiver selector).1.length = store.length ∧
    (elementProtoQSP env doc g store (some i) receiver selector).1 =
      (documentProtoQSP env doc g store (some i) receiver selector).1 := by
  have hget :
      (documentProtoQSP env doc g store (some i) receiver selector).1.getD i ({} : OptionsObj) =
        objectAssignRootElement (store.getD i {}) receiver := by
    unfold documentProtoQSP
    dsimp only
    exact getD_set_self store i _ {} hi
  refine ⟨?_, ?_, ?_, ?_, rfl⟩
  · rw [hget]
    rfl
  · rw [hget]
    rfl
  · rw [hget]
    rfl
  · unfold documentProtoQSP
    dsimp only
    exact List.length_set store i _

/-- The one object options store of the C10 witness. -/
def store10 : List OptionsObj := [{ matchExisting := some false }]

/-- Witness for C10: after the document binding call with receiver 3, the
caller object in slot 0 carries rootElement 3. -/
theorem c10_witness :
    (0 < store10.length) ∧
    ((documentProtoQSP envStub doc2 freshGlobal store10 (some 0) 3
        (".item")).1.getD 0 {}).rootElement = some 3 :=
  ⟨by decide,
    (c10_options_mutated_in_place envStub doc2 freshGlobal store10 0 3 (".item")
      (by decide)).1⟩

end QSP
